import Mathlib

/-!
Verification of the collage layout engine of the pixpress repository
(utils/collage.js).  The JavaScript code is shallowly embedded: integer
quantities become `ℤ`/`ℕ`, real-valued intermediates (JS numbers produced
by `Math.random`, divisions and the fractional constants) become `ℚ`,
`Math.floor` becomes `Int.floor` on `ℚ`, `Math.round x` becomes
`⌊x + 1/2⌋`, and per-image decode failures are modelled by a predicate
`decode : ℕ → Bool` (true = the image decodes).  `Math.random` is
modelled by explicit streams of rationals, universally quantified.
-/

namespace Pixpress

/-- JS `Math.round`: round half up, i.e. `⌊x + 1/2⌋`. -/
def roundJS (q : ℚ) : ℤ := ⌊q + 1/2⌋

/-- JS `Math.ceil(Math.sqrt(n))` for a natural number `n`: the least `k`
with `n ≤ k * k`. -/
def ceilSqrtN (n : ℕ) : ℕ :=
  if Nat.sqrt n * Nat.sqrt n = n then Nat.sqrt n else Nat.sqrt n + 1

/-- JS `Math.ceil(n / c)` for natural numbers (ceiling division). -/
def natCeilDiv (n c : ℕ) : ℕ := (n + c - 1) / c

/-- The character class of JS whitespace (`\s`, also used by
`String.prototype.trim`). -/
def jsWhitespace (c : Char) : Bool :=
  let n := c.toNat
  (9 ≤ n && n ≤ 13) || n = 32 || n = 160 || n = 5760 ||
    (8192 ≤ n && n ≤ 8202) || n = 8232 || n = 8233 || n = 8239 ||
    n = 8287 || n = 12288 || n = 65279

/-- JS `toLowerCase`, restricted to the ASCII range (the only characters
that can influence the color grammar below). -/
def lowerJS (c : Char) : Char :=
  if 'A' ≤ c && c ≤ 'Z' then Char.ofNat (c.toNat + 32) else c

/-- JS `String.prototype.trim`: drop whitespace from both ends. -/
def trimJS (l : List Char) : List Char :=
  ((l.dropWhile jsWhitespace).reverse.dropWhile jsWhitespace).reverse

/-- The character list of a string literal. -/
def strL (s : String) : List Char := s.data

/-- An RGB triple as produced by `parseColor`.  Components are `Option ℤ`:
`none` models the JS `NaN` that `parseInt` returns when no digit can be
read. -/
structure RGBv where
  r : Option ℤ
  g : Option ℤ
  b : Option ℤ
deriving DecidableEq

def whiteRGBv : RGBv := ⟨some 255, some 255, some 255⟩

/-- The `namedColors` table lookup of `parseColor`. -/
def lookupNamed (c : List Char) : Option RGBv :=
  if c = strL "white" then some ⟨some 255, some 255, some 255⟩
  else if c = strL "black" then some ⟨some 0, some 0, some 0⟩
  else if c = strL "gray" then some ⟨some 128, some 128, some 128⟩
  else if c = strL "grey" then some ⟨some 128, some 128, some 128⟩
  else if c = strL "red" then some ⟨some 255, some 0, some 0⟩
  else if c = strL "green" then some ⟨some 0, some 255, some 0⟩
  else if c = strL "blue" then some ⟨some 0, some 0, some 255⟩
  else if c = strL "yellow" then some ⟨some 255, some 255, some 0⟩
  else if c = strL "magenta" then some ⟨some 255, some 0, some 255⟩
  else if c = strL "cyan" then some ⟨some 0, some 255, some 255⟩
  else none

def isHexDigitJS (c : Char) : Bool :=
  ('0' ≤ c && c ≤ '9') || ('a' ≤ c && c ≤ 'f') || ('A' ≤ c && c ≤ 'F')

def hexVal (c : Char) : ℕ :=
  if '0' ≤ c && c ≤ '9' then c.toNat - '0'.toNat
  else if 'a' ≤ c && c ≤ 'f' then c.toNat - 'a'.toNat + 10
  else if 'A' ≤ c && c ≤ 'F' then c.toNat - 'A'.toNat + 10
  else 0

/-- JS `parseInt(s, 16)`: skip leading whitespace, read an optional sign
and an optional `0x` marker, then the longest prefix of hexadecimal
digits; `none` (= `NaN`) when that prefix is empty. -/
def parseIntHex16 (l : List Char) : Option ℤ :=
  let l1 := l.dropWhile jsWhitespace
  let neg : Bool := l1.headD ' ' = '-'
  let l2 := if neg || (l1.headD ' ' = '+') then l1.tail else l1
  let l3 :=
    if l2.headD ' ' = '0' && (l2.tail.headD ' ' = 'x' || l2.tail.headD ' ' = 'X') then
      l2.tail.tail
    else l2
  let ds := l3.takeWhile isHexDigitJS
  if ds = [] then none
  else some ((if neg then -1 else 1) * (ds.foldl (fun a c => 16 * a + (hexVal c : ℤ)) 0))

def isDigitJS (c : Char) : Bool := '0' ≤ c && c ≤ '9'

def digitsVal (ds : List Char) : ℕ :=
  ds.foldl (fun a c => 10 * a + (c.toNat - '0'.toNat)) 0

/-- Read a maximal nonempty run of decimal digits (`\d+`), returning its
value and the rest of the input. -/
def parseNum (l : List Char) : Option (ℕ × List Char) :=
  let ds := l.takeWhile isDigitJS
  if ds = [] then none else some (digitsVal ds, l.drop ds.length)

/-- Match the regular expression `rgb\((\d+),\s*(\d+),\s*(\d+)\)` at the
head of the input. -/
def matchRgbAt (l : List Char) : Option (ℕ × ℕ × ℕ) :=
  match l with
  | 'r' :: 'g' :: 'b' :: '(' :: rest =>
    match parseNum rest with
    | none => none
    | some (n1, r1) =>
      match r1 with
      | ',' :: r2 =>
        match parseNum (r2.dropWhile jsWhitespace) with
        | none => none
        | some (n2, r4) =>
          match r4 with
          | ',' :: r5 =>
            match parseNum (r5.dropWhile jsWhitespace) with
            | none => none
            | some (n3, r7) =>
              match r7 with
              | ')' :: _ => some (n1, n2, n3)
              | _ => none
          | _ => none
      | _ => none
  | _ => none

/-- Search for the leftmost match of the `rgb(...)` pattern
(`String.prototype.match` with an unanchored regular expression). -/
def rgbSearch : List Char → Option (ℕ × ℕ × ℕ)
  | [] => none
  | c :: rest =>
    match matchRgbAt (c :: rest) with
    | some t => some t
    | none => rgbSearch rest

/-- The tail of `parseColor`: the `rgb(r,g,b)` regular-expression branch
with its `Math.min(255, Math.max(0, parseInt(...)))` clamping, and the
default white. -/
def rgbOrWhite (color : List Char) : RGBv :=
  match rgbSearch color with
  | some (r, g, b) =>
    ⟨some (min 255 (max 0 (r : ℤ))), some (min 255 (max 0 (g : ℤ))),
      some (min 255 (max 0 (b : ℤ)))⟩
  | none => whiteRGBv

/-- `parseColor` from utils/collage.js: lowercase and trim, named-color
table, `#`-prefixed 3- or 6-character hex (via `parseInt(·, 16)` on the
character slices), then the `rgb(r,g,b)` pattern, defaulting to white. -/
def parseColor (colorStr : String) : RGBv :=
  let color := trimJS (colorStr.data.map lowerJS)
  match lookupNamed color with
  | some rgb => rgb
  | none =>
    if color.headD ' ' = '#' then
      let hex := color.tail
      if hex.length = 3 then
        ⟨parseIntHex16 [hex.getD 0 ' ', hex.getD 0 ' '],
         parseIntHex16 [hex.getD 1 ' ', hex.getD 1 ' '],
         parseIntHex16 [hex.getD 2 ' ', hex.getD 2 ' ']⟩
      else if hex.length = 6 then
        ⟨parseIntHex16 [hex.getD 0 ' ', hex.getD 1 ' '],
         parseIntHex16 [hex.getD 2 ' ', hex.getD 3 ' '],
         parseIntHex16 [hex.getD 4 ' ', hex.getD 5 ' ']⟩
      else rgbOrWhite color
    else rgbOrWhite color

/-- Whether a (lowercased, trimmed) color string enters one of the two
hex branches: it starts with `#` and the remainder has length 3 or 6. -/
def hexShapedB (c : List Char) : Bool :=
  (c.headD ' ' = '#') && (c.tail.length == 3 || c.tail.length == 6)

/-! ## Layout registry and orchestrator-level validation -/

/-- One entry of the `layouts` table. -/
structure LayoutDescriptor where
  name : String
  requiresCount : Bool
  minImages : ℕ
  maxImages : ℕ
deriving DecidableEq

/-- The static `layouts` table of utils/collage.js. -/
def layoutsTable : List (String × LayoutDescriptor) :=
  [("grid", ⟨"grid", true, 4, 25⟩),
   ("strip", ⟨"strip", false, 2, 10⟩),
   ("polaroid", ⟨"polaroid", false, 2, 12⟩),
   ("mosaic", ⟨"mosaic", false, 3, 20⟩),
   ("filmstrip", ⟨"filmstrip", false, 3, 8⟩),
   ("magazine", ⟨"magazine", false, 3, 8⟩)]

def lowerStr (s : String) : String := ⟨s.data.map lowerJS⟩

/-- `layouts[options.layout?.toLowerCase()]`: case-insensitive lookup. -/
def lookupLayout (s : String) : Option LayoutDescriptor :=
  (layoutsTable.find? (fun e => e.1 = lowerStr s)).map Prod.snd

/-- The fatal errors `collageCommand` and the planners can raise, with the
data interpolated into their messages. -/
inductive CollageError where
  | unknownLayout (name : String)
  | tooFewImages (layout : String) (minImages : ℕ) (found : ℕ)
  | tooManyImages (layout : String) (maxImages : ℕ) (found : ℕ)
  | invalidDimensions
  | canvasTooSmall
  | noValidImages
deriving DecidableEq

/-- The layout-relevant caller options (`options.background`,
`options.cols`, `options.direction`). -/
structure CollageOptions where
  background : Option String
  cols : Option ℕ
  direction : Option String
deriving DecidableEq

/-- JS `a || b` for an optional string option (the empty string is falsy). -/
def jsOr (o : Option String) (d : String) : String :=
  match o with
  | none => d
  | some "" => d
  | some s => s

/-- A single image placement: source image index, top-left corner and
target size on the canvas. -/
structure Placement where
  idx : ℕ
  left : ℤ
  top : ℤ
  width : ℤ
  height : ℤ
deriving DecidableEq

def placeholderPlacement : Placement := ⟨0, 0, 0, 0, 0⟩

/-- The indices of the images a planner loop skipped (its
`catch` branches): those whose decode failed. -/
def skipList (n : ℕ) (decode : ℕ → Bool) : List ℕ :=
  (List.range n).filterMap fun i => if decode i then none else some i

/-! ## Grid layout -/

/-- `Math.floor((canvasWidth − spacing×(cols+1)) / cols)`. -/
def gridCellW (w s : ℤ) (cols : ℕ) : ℤ :=
  ⌊((w - s * ((cols : ℤ) + 1) : ℤ) : ℚ) / (cols : ℚ)⌋

structure GridPlan where
  cols : ℕ
  rows : ℕ
  cellWidth : ℤ
  cellHeight : ℤ
  placements : List Placement
  skips : List ℕ
  background : RGBv
deriving DecidableEq

/-- `createGridLayout`: cell math, the 50px minimum check, the placement
loop (skipping undecodable images) and the empty-composite check. -/
def createGridLayout (imageCount : ℕ) (canvasWidth canvasHeight spacing : ℤ)
    (o : CollageOptions) (decode : ℕ → Bool) : Except CollageError GridPlan :=
  let cols := o.cols.getD (ceilSqrtN imageCount)
  let rows := natCeilDiv imageCount cols
  let cellWidth := gridCellW canvasWidth spacing cols
  let cellHeight := gridCellW canvasHeight spacing rows
  if cellWidth < 50 ∨ cellHeight < 50 then .error .canvasTooSmall
  else
    let placements := (List.range imageCount).filterMap fun i =>
      if decode i then
        some ⟨i, spacing + ((i % cols : ℕ) : ℤ) * (cellWidth + spacing),
          spacing + ((i / cols : ℕ) : ℤ) * (cellHeight + spacing),
          cellWidth, cellHeight⟩
      else none
    if placements.length = 0 then .error .noValidImages
    else
      .ok ⟨cols, rows, cellWidth, cellHeight, placements,
        skipList imageCount decode, parseColor (jsOr o.background "#FFFFFF")⟩

/-! ## Strip layout -/

structure StripPlan where
  isVertical : Bool
  imageWidth : ℤ
  imageHeight : ℤ
  placements : List Placement
  skips : List ℕ
  background : RGBv
deriving DecidableEq

/-- `createStripLayout`: per-direction image size, the 50px minimum check
and the tiling loop.  Unlike the grid layout there is no empty-composite
check. -/
def createStripLayout (imageCount : ℕ) (canvasWidth canvasHeight spacing : ℤ)
    (o : CollageOptions) (decode : ℕ → Bool) : Except CollageError StripPlan :=
  let isVertical := o.direction = some "vertical"
  let imageWidth :=
    if isVertical then canvasWidth - 2 * spacing
    else gridCellW canvasWidth spacing imageCount
  let imageHeight :=
    if isVertical then gridCellW canvasHeight spacing imageCount
    else canvasHeight - 2 * spacing
  if imageWidth < 50 ∨ imageHeight < 50 then .error .canvasTooSmall
  else
    .ok ⟨isVertical, imageWidth, imageHeight,
      (List.range imageCount).filterMap fun i =>
        if decode i then
          some ⟨i,
            (if isVertical then spacing
             else spacing + (i : ℤ) * (imageWidth + spacing)),
            (if isVertical then spacing + (i : ℤ) * (imageHeight + spacing)
             else spacing),
            imageWidth, imageHeight⟩
        else none,
      skipList imageCount decode, parseColor (jsOr o.background "#FFFFFF")⟩

/-! ## Polaroid layout and the collision avoider -/

/-- An accepted (integer, post-`Math.round`) position. -/
structure PosI where
  x : ℤ
  y : ℤ
deriving DecidableEq

/-- One sampled coordinate:
`margin + Math.random() * (bound − size − 2*margin)`, where `bound` is
the canvas extent along the sampled axis. -/
def sampleCoord (bound size margin : ℤ) (r : ℚ) : ℚ :=
  (margin : ℚ) + r * ((bound : ℚ) - (size : ℚ) - 2 * (margin : ℚ))

/-- The sampling loop of `generateNonOverlappingPosition`: up to `fuel`
attempts (100 in the source), attempt `i` drawing `rand (2*i)` and
`rand (2*i+1)` from the random stream; a candidate is rejected when some
previous position is within `size+20` on both axes. -/
def genLoop (canvasWidth canvasHeight size margin : ℤ) (used : List PosI)
    (rand : ℕ → ℚ) : ℕ → ℕ → Option PosI
  | _, 0 => none
  | i, fuel + 1 =>
    if used.any fun p =>
        decide (|sampleCoord canvasWidth size margin (rand (2 * i)) - (p.x : ℚ)| < (size : ℚ) + 20) &&
        decide (|sampleCoord canvasHeight size margin (rand (2 * i + 1)) - (p.y : ℚ)| < (size : ℚ) + 20) then
      genLoop canvasWidth canvasHeight size margin used rand (i + 1) fuel
    else
      some ⟨roundJS (sampleCoord canvasWidth size margin (rand (2 * i))),
        roundJS (sampleCoord canvasHeight size margin (rand (2 * i + 1)))⟩

/-- `generateNonOverlappingPosition`: 100 random attempts, then the
deterministic grid fallback. -/
def generateNonOverlappingPosition (canvasWidth canvasHeight size : ℤ)
    (usedPositions : List PosI) (margin : ℤ) (rand : ℕ → ℚ) : PosI :=
  match genLoop canvasWidth canvasHeight size margin usedPositions rand 0 100 with
  | some p => p
  | none =>
    let gridCols := ceilSqrtN (usedPositions.length + 1)
    let gridIndex := usedPositions.length
    ⟨((gridIndex % gridCols : ℕ) : ℤ) * (size + 20) + margin,
     ((gridIndex / gridCols : ℕ) : ℤ) * (size + 20) + margin⟩

/-- `baseSize = Math.min(W,H) / Math.ceil(Math.sqrt(count))`. -/
def polaroidBaseSize (imageCount : ℕ) (canvasWidth canvasHeight : ℤ) : ℚ :=
  (min canvasWidth canvasHeight : ℚ) / (ceilSqrtN imageCount : ℚ)

/-- `polaroidSize = Math.max(150, Math.min(300, Math.floor(baseSize * 0.8)))`. -/
def polaroidSizeOf (imageCount : ℕ) (canvasWidth canvasHeight : ℤ) : ℤ :=
  max 150 (min 300 ⌊polaroidBaseSize imageCount canvasWidth canvasHeight * (8 / 10)⌋)

/-- `imageSize = Math.floor(polaroidSize * 0.75)`. -/
def polaroidImageSize (polaroidSize : ℤ) : ℤ := ⌊(polaroidSize : ℚ) * (3 / 4)⌋

/-- `border = Math.floor((polaroidSize − imageSize) / 2)`. -/
def polaroidBorder (polaroidSize : ℤ) : ℤ :=
  ⌊((polaroidSize - polaroidImageSize polaroidSize : ℤ) : ℚ) / 2⌋

/-- `Math.random() * 30 - 15`: the rotation applied to one polaroid. -/
def rotationOf (r : ℚ) : ℚ := r * 30 - 15

/-- `bottomBorder = border * 2`. -/
def polaroidBottomBorder (polaroidSize : ℤ) : ℤ := polaroidBorder polaroidSize * 2

/-- State of the `createPolaroidLayout` loop.  `used` additionally
records, for each accepted position, whether it was produced by the
randomized path (`true`) or by the grid fallback (`false`); utils/collage.js
stores only the position itself. -/
structure PolaroidState where
  placements : List (ℕ × PosI)
  used : List (PosI × Bool)
  skips : List ℕ
deriving DecidableEq

/-- One iteration of the `createPolaroidLayout` loop for image `i`:
generate a position against the positions used so far; on successful
decode, push the placement and the position, otherwise record a skip. -/
def polaroidStep (canvasWidth canvasHeight size : ℤ) (randF : ℕ → ℕ → ℚ)
    (decode : ℕ → Bool) (i : ℕ) (st : PolaroidState) : PolaroidState :=
  let usedPos := st.used.map Prod.fst
  let pos := generateNonOverlappingPosition canvasWidth canvasHeight size usedPos 50 (randF i)
  if decode i then
    ⟨st.placements ++ [(i, pos)],
     st.used ++ [(pos, (genLoop canvasWidth canvasHeight size 50 usedPos (randF i) 0 100).isSome)],
     st.skips⟩
  else ⟨st.placements, st.used, st.skips ++ [i]⟩

/-- The `createPolaroidLayout` loop after processing the first `k` images. -/
def polaroidAux (canvasWidth canvasHeight size : ℤ) (randF : ℕ → ℕ → ℚ)
    (decode : ℕ → Bool) : ℕ → PolaroidState
  | 0 => ⟨[], [], []⟩
  | k + 1 =>
    polaroidStep canvasWidth canvasHeight size randF decode k
      (polaroidAux canvasWidth canvasHeight size randF decode k)

structure PolaroidPlan where
  polaroidSize : ℤ
  placements : List (ℕ × PosI)
  used : List (PosI × Bool)
  skips : List ℕ
  background : RGBv
deriving DecidableEq

/-- `createPolaroidLayout`: sizing, then the placement loop with a fixed
50px margin.  `randF i` is the slice of the `Math.random` stream consumed
while placing image `i`. -/
def createPolaroidLayout (imageCount : ℕ) (canvasWidth canvasHeight : ℤ)
    (o : CollageOptions) (randF : ℕ → ℕ → ℚ) (decode : ℕ → Bool) : PolaroidPlan :=
  let size := polaroidSizeOf imageCount canvasWidth canvasHeight
  let st := polaroidAux canvasWidth canvasHeight size randF decode imageCount
  ⟨size, st.placements, st.used, st.skips, parseColor (jsOr o.background "#F5F5F5")⟩

/-! ## Mosaic layout -/

/-- A normalized rectangle produced by `generateMosaicPattern`. -/
structure RectQ where
  width : ℚ
  height : ℚ
  x : ℚ
  y : ℚ
deriving DecidableEq

/-- One loop iteration of `generateMosaicPattern`: sample `baseWidth` and
`baseHeight` uniformly in `[0.2, 0.5)` from `r0`, `r1`, adjust by the
canvas aspect ratio, then sample `x ∈ [0, 1−width)` and
`y ∈ [0, 1−height)` from `r2`, `r3`. -/
def mosaicRect (aspect r0 r1 r2 r3 : ℚ) : RectQ :=
  let baseWidth : ℚ := 2/10 + r0 * (3/10)
  let baseHeight : ℚ := 2/10 + r1 * (3/10)
  let width := if aspect > 1 then baseWidth else baseWidth * aspect
  let height := if aspect < 1 then baseHeight else baseHeight / aspect
  ⟨width, height, r2 * (1 - width), r3 * (1 - height)⟩

/-- `generateMosaicPattern`: one random rectangle per image; tile `i`
consumes `rand (4*i) … rand (4*i+3)` in source order. -/
def generateMosaicPattern (imageCount : ℕ) (canvasWidth canvasHeight : ℤ)
    (rand : ℕ → ℚ) : List RectQ :=
  (List.range imageCount).map fun i =>
    mosaicRect ((canvasWidth : ℚ) / (canvasHeight : ℚ))
      (rand (4 * i)) (rand (4 * i + 1)) (rand (4 * i + 2)) (rand (4 * i + 3))

/-- Pixel conversion of one mosaic tile: the 100px floor per dimension and
the clamping of the top-left corner into the canvas. -/
def mosaicTile (canvasWidth canvasHeight : ℤ) (i : ℕ) (p : RectQ) : Placement :=
  let width := max 100 ⌊(canvasWidth : ℚ) * p.width⌋
  let height := max 100 ⌊(canvasHeight : ℚ) * p.height⌋
  let left := max 0 (min (canvasWidth - width) ⌊(canvasWidth : ℚ) * p.x⌋)
  let top := max 0 (min (canvasHeight - height) ⌊(canvasHeight : ℚ) * p.y⌋)
  ⟨i, left, top, width, height⟩

structure MosaicPlan where
  patterns : List RectQ
  placements : List Placement
  skips : List ℕ
  background : RGBv
deriving DecidableEq

/-- `createMosaicLayout`: generate the patterns, then place the first
`min(imageCount, patterns.length)` images, skipping decode failures. -/
def createMosaicLayout (imageCount : ℕ) (canvasWidth canvasHeight : ℤ)
    (o : CollageOptions) (rand : ℕ → ℚ) (decode : ℕ → Bool) : MosaicPlan :=
  let patterns := generateMosaicPattern imageCount canvasWidth canvasHeight rand
  let bound := min imageCount patterns.length
  ⟨patterns,
   (List.range bound).filterMap fun i =>
     if decode i then some (mosaicTile canvasWidth canvasHeight i (patterns.getD i ⟨0, 0, 0, 0⟩))
     else none,
   skipList bound decode,
   parseColor (jsOr o.background "#FFFFFF")⟩

/-! ## Filmstrip layout -/

/-- The perforation x-positions: `for (x = 30; x < W − 15; x += 30)`,
modelled with explicit fuel (the loop advances by 30 each time, so
`canvasWidth` iterations are more than enough). -/
def perfXsAux (canvasWidth : ℤ) : ℤ → ℕ → List ℤ
  | _, 0 => []
  | x, fuel + 1 =>
    if x < canvasWidth - 15 then x :: perfXsAux canvasWidth (x + 30) fuel else []

def perfXs (canvasWidth : ℤ) : List ℤ := perfXsAux canvasWidth 30 canvasWidth.toNat

structure FilmstripPlan where
  outerBackground : RGBv
  bandColor : RGBv
  bandLeft : ℤ
  bandTop : ℤ
  bandWidth : ℤ
  bandHeight : ℤ
  perfHeight : ℤ
  perforations : List (ℤ × ℤ)
  placements : List Placement
  skips : List ℕ
deriving DecidableEq

/-- `createFilmstripLayout`: the 60%-height band (colored by the
`background` option, default `#1a1a1a`), white perforations along its top
and bottom edges, the frame loop, and an outer canvas fixed to
`parseColor("#404040")`. -/
def createFilmstripLayout (imageCount : ℕ) (canvasWidth canvasHeight spacing : ℤ)
    (o : CollageOptions) (decode : ℕ → Bool) : FilmstripPlan :=
  let backgroundColor := parseColor (jsOr o.background "#1a1a1a")
  let stripHeight := ⌊(canvasHeight : ℚ) * (6/10)⌋
  let perfHeight := ⌊(stripHeight : ℚ) * (15/100)⌋
  let frameAreaHeight := stripHeight - 2 * perfHeight
  let totalFrameWidth := canvasWidth - 2 * spacing
  let frameSpacing := ⌊(totalFrameWidth : ℚ) * (2/100)⌋
  let totalSpacing := frameSpacing * ((imageCount : ℤ) - 1)
  let frameWidth := ⌊((totalFrameWidth - totalSpacing : ℤ) : ℚ) / (imageCount : ℚ)⌋
  let frameHeight := ⌊(frameAreaHeight : ℚ) * (85/100)⌋
  let stripTop := ⌊((canvasHeight - stripHeight : ℤ) : ℚ) / 2⌋
  let frameTop := stripTop + perfHeight + ⌊((frameAreaHeight - frameHeight : ℤ) : ℚ) / 2⌋
  ⟨parseColor "#404040",
   backgroundColor, 0, stripTop, canvasWidth, stripHeight, perfHeight,
   (perfXs canvasWidth).flatMap fun x =>
     [(x, stripTop), (x, stripTop + stripHeight - perfHeight)],
   (List.range imageCount).filterMap fun i =>
     if decode i then
       some ⟨i, spacing + (i : ℤ) * (frameWidth + frameSpacing), frameTop,
         frameWidth, frameHeight⟩
     else none,
   skipList imageCount decode⟩

/-! ## Magazine layout -/

structure MagazinePlan where
  placements : List Placement
  skips : List ℕ
  background : RGBv
deriving DecidableEq

/-- One secondary-image placement of the magazine layout: image `i+1` in
column `i mod cols`, row `i div cols` of the right-hand grid. -/
def magazineSecondary (mainWidth mainTop secondaryWidth secondaryHeight spacing : ℤ)
    (cols : ℕ) (i : ℕ) : Placement :=
  ⟨i + 1,
   mainWidth + 2 * spacing + ((i % cols : ℕ) : ℤ) * (secondaryWidth + spacing),
   mainTop + ((i / cols : ℕ) : ℤ) * (secondaryHeight + spacing),
   secondaryWidth, secondaryHeight⟩

/-- `createMagazineLayout`: the 55%×80% featured image (index 0,
vertically centered), then the remaining images in a ≤2-column grid to
its right. -/
def createMagazineLayout (imageCount : ℕ) (canvasWidth canvasHeight spacing : ℤ)
    (o : CollageOptions) (decode : ℕ → Bool) : MagazinePlan :=
  let mainWidth := ⌊(canvasWidth : ℚ) * (55/100)⌋
  let mainHeight := ⌊(canvasHeight : ℚ) * (8/10)⌋
  let mainTop := ⌊((canvasHeight - mainHeight : ℤ) : ℚ) / 2⌋
  let main : List Placement :=
    if decode 0 then [⟨0, spacing, mainTop, mainWidth, mainHeight⟩] else []
  let mainSkips : List ℕ := if decode 0 then [] else [0]
  if imageCount ≤ 1 then ⟨main, mainSkips, parseColor (jsOr o.background "#FFFFFF")⟩
  else
    let secCount := imageCount - 1
    let secondaryAreaWidth := canvasWidth - mainWidth - 3 * spacing
    let cols : ℕ := min 2 secCount
    let rows : ℕ := natCeilDiv secCount cols
    let secondaryWidth :=
      ⌊((secondaryAreaWidth - spacing * ((cols : ℤ) - 1) : ℤ) : ℚ) / (cols : ℚ)⌋
    let secondaryHeight :=
      ⌊((mainHeight - spacing * ((rows : ℤ) - 1) : ℤ) : ℚ) / (rows : ℚ)⌋
    ⟨main ++ ((List.range secCount).filterMap fun i =>
        if decode (i + 1) then
          some (magazineSecondary mainWidth mainTop secondaryWidth secondaryHeight spacing cols i)
        else none),
     mainSkips ++ ((List.range secCount).filterMap fun i =>
        if decode (i + 1) then none else some (i + 1)),
     parseColor (jsOr o.background "#FFFFFF")⟩

/-! ## The orchestrator (`collageCommand`) -/

inductive CollagePlan where
  | grid (p : GridPlan)
  | strip (p : StripPlan)
  | polaroid (p : PolaroidPlan)
  | mosaic (p : MosaicPlan)
  | filmstrip (p : FilmstripPlan)
  | magazine (p : MagazinePlan)
deriving DecidableEq

/-- The `switch (layout.name)` dispatch of `collageCommand`. -/
def dispatchLayout (name : String) (imageCount : ℕ) (w h s : ℤ)
    (o : CollageOptions) (randF : ℕ → ℕ → ℚ) (decode : ℕ → Bool) :
    Except CollageError CollagePlan :=
  if name = "grid" then (createGridLayout imageCount w h s o decode).map .grid
  else if name = "strip" then (createStripLayout imageCount w h s o decode).map .strip
  else if name = "polaroid" then .ok (.polaroid (createPolaroidLayout imageCount w h o randF decode))
  else if name = "mosaic" then .ok (.mosaic (createMosaicLayout imageCount w h o (randF 0) decode))
  else if name = "filmstrip" then .ok (.filmstrip (createFilmstripLayout imageCount w h s o decode))
  else if name = "magazine" then .ok (.magazine (createMagazineLayout imageCount w h s o decode))
  else .error (.unknownLayout name)

/-- The validation and dispatch backbone of `collageCommand`: layout
lookup, the two image-count checks (in source order, before anything
layout-specific runs), the canvas-dimension bounds, then the planner. -/
def collageBuild (layoutName : String) (imageCount : ℕ) (w h s : ℤ)
    (o : CollageOptions) (randF : ℕ → ℕ → ℚ) (decode : ℕ → Bool) :
    Except CollageError CollagePlan :=
  match lookupLayout layoutName with
  | none => .error (.unknownLayout layoutName)
  | some l =>
    if imageCount < l.minImages then
      .error (.tooFewImages l.name l.minImages imageCount)
    else if l.maxImages < imageCount then
      .error (.tooManyImages l.name l.maxImages imageCount)
    else if w < 200 ∨ 8000 < w ∨ h < 200 ∨ 8000 < h then
      .error .invalidDimensions
    else dispatchLayout l.name imageCount w h s o randF decode

/-! ## Derived definitions used by the theorems -/

def dUsed : PosI × Bool := (⟨0, 0⟩, false)

/-- Pairwise clearance among recorded positions: every later entry that
was produced by the randomized path is at clearance at least `size + 20`
on some axis from every earlier entry. -/
def pairClear (size : ℤ) (l : List (PosI × Bool)) : Prop :=
  ∀ i j : ℕ, i < j → j < l.length → (l.getD j dUsed).2 = true →
    size + 20 ≤ |(l.getD i dUsed).1.x - (l.getD j dUsed).1.x| ∨
    size + 20 ≤ |(l.getD i dUsed).1.y - (l.getD j dUsed).1.y|

/-- Whether the build result is one of the two image-count errors. -/
def isCountError : Except CollageError CollagePlan → Bool
  | .error (.tooFewImages _ _ _) => true
  | .error (.tooManyImages _ _ _) => true
  | _ => false

def wRandF : ℕ → ℕ → ℚ := fun i _ => if i = 0 then 0 else 1/2

def wDecode : ℕ → Bool := fun _ => true

/-- The mosaic rectangle produced on a 200×200 canvas when every random
draw equals 1/2 (aspect ratio 1, base sizes 7/20, offsets 13/40). -/
def wMosaicRect : RectQ := ⟨7/20, 7/20, 13/40, 13/40⟩

/-! ## Generic helper instances and lemmas -/

instance instDecEqExcept {ε α : Type} [DecidableEq ε] [DecidableEq α] :
    DecidableEq (Except ε α) := fun x y =>
  match x, y with
  | .error e, .error f =>
    if h : e = f then isTrue (congrArg Except.error h)
    else isFalse fun hh => h (by cases hh; rfl)
  | .error _, .ok _ => isFalse fun hh => Except.noConfusion hh
  | .ok _, .error _ => isFalse fun hh => Except.noConfusion hh
  | .ok a, .ok b =>
    if h : a = b then isTrue (congrArg Except.ok h)
    else isFalse fun hh => h (by cases hh; rfl)

lemma getD_append_left {α : Type} (l l' : List α) (d : α) :
    ∀ i, i < l.length → (l ++ l').getD i d = l.getD i d := by
  induction l with
  | nil => intro i hi; simp at hi
  | cons a t ih =>
    intro i hi
    cases i with
    | zero => rfl
    | succ k => exact ih k (by simpa using hi)

lemma getD_concat_self {α : Type} (l : List α) (e d : α) :
    (l ++ [e]).getD l.length d = e := by
  induction l with
  | nil => rfl
  | cons a t ih => simp [ih]

lemma getD_mem {α : Type} (l : List α) (d : α) :
    ∀ i, i < l.length → l.getD i d ∈ l := by
  induction l with
  | nil => intro i hi; simp at hi
  | cons a t ih =>
    intro i hi
    cases i with
    | zero => exact List.mem_cons_self a t
    | succ k => exact List.mem_cons_of_mem a (ih k (by simpa using hi))

lemma length_filterMap_ite_add {α β : Type} (p : ℕ → Bool) (f : ℕ → α) (g : ℕ → β) :
    ∀ l : List ℕ,
      (l.filterMap fun i => if p i then some (f i) else none).length +
      (l.filterMap fun i => if p i then none else some (g i)).length = l.length := by
  intro l
  induction l with
  | nil => rfl
  | cons a t ih =>
    by_cases hp : p a = true <;> simp [List.filterMap_cons, hp] <;> omega

lemma filterMap_ite_of_all_neg {α : Type} (p : ℕ → Bool) (f : ℕ → α)
    (hall : ∀ i, p i = false) :
    ∀ l : List ℕ, (l.filterMap fun i => if p i then some (f i) else none) = [] := by
  intro l
  induction l with
  | nil => rfl
  | cons a t ih => simp [List.filterMap_cons, hall a, ih]

/-! ## Properties of the collision avoider -/

lemma abs_roundJS_sub_le (q : ℚ) : |q - (roundJS q : ℚ)| ≤ 1/2 := by
  unfold roundJS
  rw [abs_le]
  constructor
  · have h := Int.floor_le (q + 1/2)
    push_cast at h ⊢
    linarith
  · have h := Int.lt_floor_add_one (q + 1/2)
    push_cast at h ⊢
    linarith

/-- Rounding a candidate coordinate to an integer cannot shrink its
distance to an already-used integer coordinate below an integer bound. -/
lemma roundJS_clear {c p : ℤ} {q : ℚ} (h : (c : ℚ) ≤ |q - (p : ℚ)|) :
    c ≤ |roundJS q - p| := by
  have h1 := abs_roundJS_sub_le q
  have ht := abs_sub_le q ((roundJS q : ℤ) : ℚ) ((p : ℤ) : ℚ)
  have h2 : ((c - 1 : ℤ) : ℚ) < ((|roundJS q - p| : ℤ) : ℚ) := by
    push_cast
    linarith
  have h3 : (c - 1 : ℤ) < |roundJS q - p| := by exact_mod_cast h2
  omega

/-- If the sampling loop accepts a position, that (rounded) position is
at clearance at least `size + 20` from every used position on at least
one axis. -/
lemma genLoop_sound (canvasWidth canvasHeight size margin : ℤ) (used : List PosI)
    (rand : ℕ → ℚ) (fuel : ℕ) :
    ∀ (i : ℕ) (pos : PosI),
      genLoop canvasWidth canvasHeight size margin used rand i fuel = some pos →
      ∀ p ∈ used, size + 20 ≤ |pos.x - p.x| ∨ size + 20 ≤ |pos.y - p.y| := by
  induction fuel with
  | zero => intro i pos h; simp [genLoop] at h
  | succ fuel ih =>
    intro i pos h p hp
    rw [genLoop] at h
    split at h
    · exact ih (i + 1) pos h p hp
    · next hc =>
      rcases Option.some.inj h with rfl
      have hcq : ¬((decide (|sampleCoord canvasWidth size margin (rand (2 * i)) - (p.x : ℚ)| < (size : ℚ) + 20) &&
          decide (|sampleCoord canvasHeight size margin (rand (2 * i + 1)) - (p.y : ℚ)| < (size : ℚ) + 20)) = true) := by
        intro hq
        exact hc (List.any_eq_true.mpr ⟨p, hp, hq⟩)
      simp only [Bool.and_eq_true, decide_eq_true_eq, not_and_or, not_lt] at hcq
      rcases hcq with hx | hy
      · left
        have hx' : ((size + 20 : ℤ) : ℚ) ≤
            |sampleCoord canvasWidth size margin (rand (2 * i)) - (p.x : ℚ)| := by
          push_cast
          linarith
        exact roundJS_clear hx'
      · right
        have hy' : ((size + 20 : ℤ) : ℚ) ≤
            |sampleCoord canvasHeight size margin (rand (2 * i + 1)) - (p.y : ℚ)| := by
          push_cast
          linarith
        exact roundJS_clear hy'

lemma pairClear_append (size : ℤ) (l : List (PosI × Bool)) (e : PosI × Bool)
    (hl : pairClear size l)
    (he : e.2 = true → ∀ p ∈ l.map Prod.fst,
      size + 20 ≤ |e.1.x - p.x| ∨ size + 20 ≤ |e.1.y - p.y|) :
    pairClear size (l ++ [e]) := by
  intro i j hij hj htag
  rw [List.length_append, List.length_singleton] at hj
  by_cases hjl : j < l.length
  · rw [getD_append_left _ _ _ _ hjl] at htag
    rw [getD_append_left _ _ _ _ hjl, getD_append_left _ _ _ _ (lt_trans hij hjl)]
    exact hl i j hij hjl htag
  · have hj' : j = l.length := by omega
    subst hj'
    rw [getD_concat_self] at htag
    rw [getD_concat_self, getD_append_left _ _ _ _ hij]
    have hmem : (l.getD i dUsed).1 ∈ l.map Prod.fst :=
      List.mem_map_of_mem Prod.fst (getD_mem l dUsed i hij)
    rcases he htag _ hmem with hx | hy
    · left
      rw [abs_sub_comm] at hx
      exact hx
    · right
      rw [abs_sub_comm] at hy
      exact hy

lemma polaroidAux_pairClear (canvasWidth canvasHeight size : ℤ)
    (randF : ℕ → ℕ → ℚ) (decode : ℕ → Bool) :
    ∀ n, pairClear size (polaroidAux canvasWidth canvasHeight size randF decode n).used := by
  intro n
  induction n with
  | zero =>
    intro i j hij hj htag
    simp [polaroidAux] at hj
  | succ k ih =>
    rw [polaroidAux, polaroidStep]
    by_cases hd : decode k = true
    · simp only [hd, if_true]
      apply pairClear_append _ _ _ ih
      intro htag p hp
      rcases Option.isSome_iff_exists.mp htag with ⟨q, hq⟩
      have hpos :
          generateNonOverlappingPosition canvasWidth canvasHeight size
            ((polaroidAux canvasWidth canvasHeight size randF decode k).used.map Prod.fst)
            50 (randF k) = q := by
        simp [generateNonOverlappingPosition, hq]
      simp only [hpos]
      exact genLoop_sound canvasWidth canvasHeight size 50 _ (randF k) 100 0 q hq p hp
    · simp only [hd, if_false]
      exact ih

/-! ## Character-level lemmas for the case-insensitive lookup -/

lemma toNat_ofNat_valid {n : ℕ} (h : n.isValidChar) : (Char.ofNat n).toNat = n := by
  simp [Char.ofNat, h, Char.ofNatAux, Char.toNat, UInt32.toNat]

lemma charLe_toNat {a b : Char} (h : a ≤ b) : a.toNat ≤ b.toNat := by
  rw [Char.le_def, UInt32.le_def, BitVec.le_def] at h
  exact h

lemma lowerJS_idem (c : Char) : lowerJS (lowerJS c) = lowerJS c := by
  unfold lowerJS
  by_cases h : ('A' ≤ c && c ≤ 'Z') = true
  · rw [if_pos h, if_neg]
    rw [Bool.and_eq_true, decide_eq_true_eq, decide_eq_true_eq] at h
    have h1 : 65 ≤ c.toNat := charLe_toNat h.1
    have h2 : c.toNat ≤ 90 := charLe_toNat h.2
    have hv : (c.toNat + 32).isValidChar := Or.inl (by omega)
    intro hh
    rw [Bool.and_eq_true, decide_eq_true_eq, decide_eq_true_eq] at hh
    have h4 := charLe_toNat hh.2
    rw [toNat_ofNat_valid hv] at h4
    have h5 : ('Z').toNat = 90 := by decide
    omega
  · rw [if_neg h, if_neg h]

lemma lowerStr_idem (s : String) : lowerStr (lowerStr s) = lowerStr s := by
  show (⟨(s.data.map lowerJS).map lowerJS⟩ : String) = ⟨s.data.map lowerJS⟩
  congr 1
  rw [List.map_map]
  exact List.map_congr_left fun a _ => lowerJS_idem a

lemma lookupLayout_lowerStr (s : String) :
    lookupLayout (lowerStr s) = lookupLayout s := by
  unfold lookupLayout
  rw [lowerStr_idem]

/-! ## The dispatcher never produces an image-count error -/

lemma isCountError_grid (n : ℕ) (w h s : ℤ) (o : CollageOptions) (decode : ℕ → Bool) :
    isCountError ((createGridLayout n w h s o decode).map CollagePlan.grid) = false := by
  simp only [createGridLayout]
  split
  · rfl
  · split <;> rfl

lemma isCountError_strip (n : ℕ) (w h s : ℤ) (o : CollageOptions) (decode : ℕ → Bool) :
    isCountError ((createStripLayout n w h s o decode).map CollagePlan.strip) = false := by
  simp only [createStripLayout]
  split <;> split <;> rfl

lemma isCountError_dispatch (name : String) (n : ℕ) (w h s : ℤ)
    (o : CollageOptions) (randF : ℕ → ℕ → ℚ) (decode : ℕ → Bool) :
    isCountError (dispatchLayout name n w h s o randF decode) = false := by
  unfold dispatchLayout
  split_ifs
  · exact isCountError_grid n w h s o decode
  · exact isCountError_strip n w h s o decode
  · rfl
  · rfl
  · rfl
  · rfl
  · rfl

/-! ## Claim theorems -/

/-- C1 (amended): every position accepted on the randomized path of
`generateNonOverlappingPosition` is, after rounding, at clearance at
least `size+20` on some axis from every previously accepted position
(randomized or fallback); and when all 100 attempts fail, the function
returns the deterministic grid slot
`((index mod cols)·(size+20)+margin, (index div cols)·(size+20)+margin)`
with `cols = ceil(sqrt(n+1))` — a slot that is not, in general, within
canvas bounds (see the counterexample). -/
theorem polaroid_collision_avoidance (canvasWidth canvasHeight size : ℤ)
    (randF : ℕ → ℕ → ℚ) (decode : ℕ → Bool) (n : ℕ) :
    pairClear size (polaroidAux canvasWidth canvasHeight size randF decode n).used
    ∧ (∀ (used : List PosI) (rand : ℕ → ℚ),
        genLoop canvasWidth canvasHeight size 50 used rand 0 100 = none →
        generateNonOverlappingPosition canvasWidth canvasHeight size used 50 rand =
          ⟨((used.length % ceilSqrtN (used.length + 1) : ℕ) : ℤ) * (size + 20) + 50,
           ((used.length / ceilSqrtN (used.length + 1) : ℕ) : ℤ) * (size + 20) + 50⟩) := by
  constructor
  · exact polaroidAux_pairClear canvasWidth canvasHeight size randF decode n
  · intro used rand h
    simp [generateNonOverlappingPosition, h]

/-- Witness for C1: on a 1000×1000 canvas with polaroid size 150, two
successive randomized placements, once accepted, are at clearance at
least 170 on the x-axis. -/
theorem polaroid_collision_avoidance_witness :
    (150 : ℤ) + 20 ≤
      |((polaroidAux 1000 1000 150 wRandF wDecode 2).used.getD 0 dUsed).1.x -
        ((polaroidAux 1000 1000 150 wRandF wDecode 2).used.getD 1 dUsed).1.x| ∨
    (150 : ℤ) + 20 ≤
      |((polaroidAux 1000 1000 150 wRandF wDecode 2).used.getD 0 dUsed).1.y -
        ((polaroidAux 1000 1000 150 wRandF wDecode 2).used.getD 1 dUsed).1.y| :=
  (polaroid_collision_avoidance 1000 1000 150 wRandF wDecode 2).1 0 1 (by decide)
    (by with_unfolding_all decide) (by with_unfolding_all decide)

/-- C1 counterexample: on a valid 200×200 canvas with 4 images
(`polaroidSize = 150`, margin 50), the sampling loop of
`generateNonOverlappingPosition` necessarily fails once one position is
used (here `(25,25)`, reachable as `round(50 + 0.5·(200−150−100))`), and
the grid fallback then returns `(220, 50)`: its x-extent `220 + 150`
exceeds the canvas width 200, violating the claimed canvas-bounds
guarantee for fallback placements. -/
theorem polaroid_fallback_counterexample :
    polaroidSizeOf 4 200 200 = 150 ∧
    genLoop 200 200 150 50 [⟨25, 25⟩] (fun _ => 1/2) 0 100 = none ∧
    generateNonOverlappingPosition 200 200 150 [⟨25, 25⟩] 50 (fun _ => 1/2) = ⟨220, 50⟩ ∧
    ¬((220 : ℤ) + 150 ≤ 200) :=
  ⟨by with_unfolding_all decide, by with_unfolding_all decide,
   by with_unfolding_all decide, by decide⟩

/-- C2: the grid planner computes `cols = options.cols ?? ceil(sqrt(n))`,
`rows = ceil(n/cols)`, cell dimensions by floor division after removing
`spacing×(cols+1)` (resp. rows), fails `CanvasTooSmall` exactly when a
cell dimension is below 50, and places image `i` at
`(spacing + (i mod cols)(cellW+spacing), spacing + (i div cols)(cellH+spacing))`;
concretely, 9 images on a 900×900 canvas with spacing 10 give
`cols = rows = 3`, cells 286×286, and placement 4 at `(306, 306)`. -/
theorem grid_planner_spec (n : ℕ) (canvasWidth canvasHeight spacing : ℤ)
    (o : CollageOptions) (decode : ℕ → Bool)
    (_hn : 0 < n) (_hc : 0 < o.cols.getD (ceilSqrtN n)) :
    (createGridLayout n canvasWidth canvasHeight spacing o decode = .error .canvasTooSmall ↔
      gridCellW canvasWidth spacing (o.cols.getD (ceilSqrtN n)) < 50 ∨
      gridCellW canvasHeight spacing (natCeilDiv n (o.cols.getD (ceilSqrtN n))) < 50)
    ∧ (∀ plan, createGridLayout n canvasWidth canvasHeight spacing o decode = .ok plan →
        plan.cols = o.cols.getD (ceilSqrtN n) ∧
        plan.rows = natCeilDiv n plan.cols ∧
        plan.cellWidth = gridCellW canvasWidth spacing plan.cols ∧
        plan.cellHeight = gridCellW canvasHeight spacing plan.rows ∧
        50 ≤ plan.cellWidth ∧ 50 ≤ plan.cellHeight ∧
        ∀ p ∈ plan.placements,
          p.left = spacing + ((p.idx % plan.cols : ℕ) : ℤ) * (plan.cellWidth + spacing) ∧
          p.top = spacing + ((p.idx / plan.cols : ℕ) : ℤ) * (plan.cellHeight + spacing) ∧
          p.width = plan.cellWidth ∧ p.height = plan.cellHeight)
    ∧ ((createGridLayout 9 900 900 10 ⟨none, none, none⟩ fun _ => true).toOption.map
        (fun p => (p.cols, p.rows, p.cellWidth, p.cellHeight,
          p.placements.getD 4 placeholderPlacement)) =
        some (3, 3, 286, 286, ⟨4, 306, 306, 286, 286⟩)) := by
  refine ⟨?_, ?_, by with_unfolding_all decide⟩
  · simp only [createGridLayout]
    by_cases hcond : gridCellW canvasWidth spacing (o.cols.getD (ceilSqrtN n)) < 50 ∨
        gridCellW canvasHeight spacing (natCeilDiv n (o.cols.getD (ceilSqrtN n))) < 50
    · simp [hcond]
    · rw [if_neg hcond]
      split
      · simp [hcond]
      · simp [hcond]
  · intro plan h
    simp only [createGridLayout] at h
    split at h
    · exact Except.noConfusion h
    · next hcond =>
      split at h
      · exact Except.noConfusion h
      · rcases Except.ok.inj h with rfl
        push_neg at hcond
        refine ⟨rfl, rfl, rfl, rfl, hcond.1, hcond.2, ?_⟩
        intro p hp
        simp only [List.mem_filterMap, List.mem_range] at hp
        rcases hp with ⟨i, hi, hpi⟩
        split at hpi
        · rcases Option.some.inj hpi with rfl
          exact ⟨rfl, rfl, rfl, rfl⟩
        · exact Option.noConfusion hpi

/-- Witness for C2 at the concrete scenario of the claim (9 images,
900×900 canvas, spacing 10, no explicit column count). -/
theorem grid_planner_spec_witness :
    (createGridLayout 9 900 900 10 ⟨none, none, none⟩ fun _ => true).toOption.map
        (fun p => (p.cols, p.rows, p.cellWidth, p.cellHeight,
          p.placements.getD 4 placeholderPlacement)) =
      some (3, 3, 286, 286, ⟨4, 306, 306, 286, 286⟩) :=
  (grid_planner_spec 9 900 900 10 ⟨none, none, none⟩ (fun _ => true)
    (by decide) (by with_unfolding_all decide)).2.2

/-- C3: for each of the six registered layouts (looked up
case-insensitively), the build fails with an image-count error exactly
when the image count is outside `[minImages, maxImages]`; the error
carries the violated bound and the actual count, and out-of-bounds counts
never reach a planner (the result is the same error for every decode and
random stream, and for every canvas).  Concretely, "grid" with 2 images
fails with minimum 4. -/
theorem image_count_validation (layoutName : String) (l : LayoutDescriptor)
    (hl : lookupLayout layoutName = some l) (n : ℕ) (w h s : ℤ)
    (o : CollageOptions) (randF : ℕ → ℕ → ℚ) (decode : ℕ → Bool) :
    (isCountError (collageBuild layoutName n w h s o randF decode) = true ↔
      n < l.minImages ∨ l.maxImages < n)
    ∧ (n < l.minImages →
        collageBuild layoutName n w h s o randF decode =
          .error (.tooFewImages l.name l.minImages n))
    ∧ (l.minImages ≤ n → l.maxImages < n →
        collageBuild layoutName n w h s o randF decode =
          .error (.tooManyImages l.name l.maxImages n))
    ∧ lookupLayout (lowerStr layoutName) = some l
    ∧ (layoutsTable.map fun e => (e.2.name, e.2.minImages, e.2.maxImages)) =
        [("grid", 4, 25), ("strip", 2, 10), ("polaroid", 2, 12), ("mosaic", 3, 20),
         ("filmstrip", 3, 8), ("magazine", 3, 8)]
    ∧ collageBuild "grid" 2 w h s o randF decode = .error (.tooFewImages "grid" 4 2) := by
  have hgrid : lookupLayout "grid" = some ⟨"grid", true, 4, 25⟩ := by decide
  refine ⟨?_, ?_, ?_, ?_, by decide, ?_⟩
  · simp only [collageBuild, hl]
    by_cases h1 : n < l.minImages
    · simp [h1, isCountError]
    · rw [if_neg h1]
      by_cases h2 : l.maxImages < n
      · simp [h2, h1, isCountError]
      · rw [if_neg h2]
        split
        · simp [isCountError, h1, h2]
        · rw [isCountError_dispatch]
          simp [h1, h2]
  · intro h1
    simp only [collageBuild, hl]
    rw [if_pos h1]
  · intro h1 h2
    simp only [collageBuild, hl]
    rw [if_neg (not_lt.mpr h1), if_pos h2]
  · rw [lookupLayout_lowerStr]
    exact hl
  · simp only [collageBuild, hgrid]
    rfl

/-- Witness for C3: the concrete scenario of the claim — layout "grid"
with 2 images fails with the bound 4 and the actual count 2. -/
theorem image_count_validation_witness :
    collageBuild "grid" 2 1920 1080 10 ⟨none, none, none⟩ (fun _ _ => 0) (fun _ => true) =
      .error (.tooFewImages "grid" 4 2) :=
  (image_count_validation "grid" ⟨"grid", true, 4, 25⟩ (by decide) 2 1920 1080 10
    ⟨none, none, none⟩ (fun _ _ => 0) (fun _ => true)).2.1 (by decide)

lemma floor_div_bounds (A : ℤ) (n : ℕ) (hn : 0 < n) :
    (n : ℤ) * ⌊(A : ℚ) / (n : ℚ)⌋ ≤ A ∧ A < (n : ℤ) * ⌊(A : ℚ) / (n : ℚ)⌋ + n := by
  have hn' : (0 : ℚ) < (n : ℚ) := by exact_mod_cast hn
  have h1 := Int.floor_le ((A : ℚ) / (n : ℚ))
  have h2 := Int.lt_floor_add_one ((A : ℚ) / (n : ℚ))
  have hmul : (n : ℚ) * ((A : ℚ) / (n : ℚ)) = (A : ℚ) := by
    field_simp
  constructor
  · have h3 : (n : ℚ) * (⌊(A : ℚ) / (n : ℚ)⌋ : ℚ) ≤ (A : ℚ) := by
      calc (n : ℚ) * (⌊(A : ℚ) / (n : ℚ)⌋ : ℚ) ≤ (n : ℚ) * ((A : ℚ) / (n : ℚ)) :=
            mul_le_mul_of_nonneg_left h1 (le_of_lt hn')
        _ = (A : ℚ) := hmul
    exact_mod_cast h3
  · have h4 : (A : ℚ) < (n : ℚ) * ((⌊(A : ℚ) / (n : ℚ)⌋ : ℚ) + 1) := by
      calc (A : ℚ) = (n : ℚ) * ((A : ℚ) / (n : ℚ)) := hmul.symm
        _ < (n : ℚ) * ((⌊(A : ℚ) / (n : ℚ)⌋ : ℚ) + 1) := mul_lt_mul_of_pos_left h2 hn'
    have h5 : (A : ℚ) < (n : ℚ) * (⌊(A : ℚ) / (n : ℚ)⌋ : ℚ) + (n : ℚ) := by
      nlinarith
    exact_mod_cast h5

/-- C5: the strip planner gives each image
`width = floor((canvasWidth − spacing·(n+1))/n)` and
`height = canvasHeight − 2·spacing` in the horizontal direction (the
vertical direction swaps the roles), fails `CanvasTooSmall` exactly when
a computed dimension is below 50, places image `i` at
`(spacing + i·(width+spacing), spacing)`, and the sum of the `n` widths
plus `spacing·(n+1)` equals `canvasWidth` minus a deficit in `[0, n)`;
concretely, 3 images on a 930×300 canvas with spacing 10 give 296×280
images with image 1 at `(316, 10)`. -/
theorem strip_planner_spec (n : ℕ) (canvasWidth canvasHeight spacing : ℤ)
    (o : CollageOptions) (decode : ℕ → Bool) (hn : 0 < n) :
    (createStripLayout n canvasWidth canvasHeight spacing o decode = .error .canvasTooSmall ↔
      (if o.direction = some "vertical" then canvasWidth - 2 * spacing
       else gridCellW canvasWidth spacing n) < 50 ∨
      (if o.direction = some "vertical" then gridCellW canvasHeight spacing n
       else canvasHeight - 2 * spacing) < 50)
    ∧ (∀ plan, createStripLayout n canvasWidth canvasHeight spacing o decode = .ok plan →
        (plan.isVertical = false →
          plan.imageWidth = gridCellW canvasWidth spacing n ∧
          plan.imageHeight = canvasHeight - 2 * spacing ∧
          ∀ p ∈ plan.placements,
            p.left = spacing + (p.idx : ℤ) * (plan.imageWidth + spacing) ∧ p.top = spacing ∧
            p.width = plan.imageWidth ∧ p.height = plan.imageHeight) ∧
        (plan.isVertical = true →
          plan.imageWidth = canvasWidth - 2 * spacing ∧
          plan.imageHeight = gridCellW canvasHeight spacing n ∧
          ∀ p ∈ plan.placements,
            p.left = spacing ∧ p.top = spacing + (p.idx : ℤ) * (plan.imageHeight + spacing) ∧
            p.width = plan.imageWidth ∧ p.height = plan.imageHeight))
    ∧ (canvasWidth - (n : ℤ) <
        (n : ℤ) * gridCellW canvasWidth spacing n + spacing * ((n : ℤ) + 1) ∧
       (n : ℤ) * gridCellW canvasWidth spacing n + spacing * ((n : ℤ) + 1) ≤ canvasWidth)
    ∧ ((createStripLayout 3 930 300 10 ⟨none, none, none⟩ fun _ => true).toOption.map
        (fun p => (p.imageWidth, p.imageHeight, p.placements.getD 1 placeholderPlacement)) =
        some (296, 280, ⟨1, 316, 10, 296, 280⟩)) := by
  refine ⟨?_, ?_, ?_, by with_unfolding_all decide⟩
  · by_cases hv : o.direction = some "vertical"
    · simp only [createStripLayout, hv, if_true, if_pos trivial]
      by_cases hcond : canvasWidth - 2 * spacing < 50 ∨ gridCellW canvasHeight spacing n < 50
      · simp [hcond]
      · rw [if_neg hcond]
        simp [hcond]
    · simp only [createStripLayout, hv, if_false]
      by_cases hcond : gridCellW canvasWidth spacing n < 50 ∨ canvasHeight - 2 * spacing < 50
      · simp [hcond]
      · rw [if_neg hcond]
        simp [hcond]
  · intro plan h
    by_cases hv : o.direction = some "vertical"
    · simp only [createStripLayout, hv, if_true] at h
      split at h
      · exact Except.noConfusion h
      · rcases Except.ok.inj h with rfl
        constructor
        · intro hfalse
          simp [hv] at hfalse
        · intro _
          refine ⟨rfl, rfl, ?_⟩
          intro p hp
          simp only [List.mem_filterMap, List.mem_range] at hp
          rcases hp with ⟨i, hi, hpi⟩
          split at hpi
          · rcases Option.some.inj hpi with rfl
            exact ⟨rfl, rfl, rfl, rfl⟩
          · exact Option.noConfusion hpi
    · simp only [createStripLayout, hv, if_false] at h
      split at h
      · exact Except.noConfusion h
      · rcases Except.ok.inj h with rfl
        constructor
        · intro _
          refine ⟨rfl, rfl, ?_⟩
          intro p hp
          simp only [List.mem_filterMap, List.mem_range] at hp
          rcases hp with ⟨i, hi, hpi⟩
          split at hpi
          · rcases Option.some.inj hpi with rfl
            exact ⟨rfl, rfl, rfl, rfl⟩
          · exact Option.noConfusion hpi
        · intro htrue
          simp [hv] at htrue
  · have hb := floor_div_bounds (canvasWidth - spacing * ((n : ℤ) + 1)) n hn
    unfold gridCellW
    constructor
    · omega
    · omega

/-- Witness for C5 at the concrete scenario of the claim (3 images,
930×300 canvas, spacing 10, horizontal). -/
theorem strip_planner_spec_witness :
    (createStripLayout 3 930 300 10 ⟨none, none, none⟩ fun _ => true).toOption.map
        (fun p => (p.imageWidth, p.imageHeight, p.placements.getD 1 placeholderPlacement)) =
      some (296, 280, ⟨1, 316, 10, 296, 280⟩) :=
  (strip_planner_spec 3 930 300 10 ⟨none, none, none⟩ (fun _ => true) (by decide)).2.2.2

lemma filterMap_nil_of_none {α β : Type} (f : α → Option β) :
    ∀ l : List α, (∀ a ∈ l, f a = none) → l.filterMap f = [] := by
  intro l
  induction l with
  | nil => intro _; rfl
  | cons a t ih =>
    intro h
    rw [List.filterMap_cons, h a (List.mem_cons_self a t)]
    exact ih fun b hb => h b (List.mem_cons_of_mem a hb)

lemma polaroidAux_placements_nil (canvasWidth canvasHeight size : ℤ)
    (randF : ℕ → ℕ → ℚ) (decode : ℕ → Bool) (hall : ∀ i, decode i = false) :
    ∀ k, (polaroidAux canvasWidth canvasHeight size randF decode k).placements = [] := by
  intro k
  induction k with
  | zero => rfl
  | succ m ih => simp [polaroidAux, polaroidStep, hall m, ih]

/-- C4 (amended): when every image fails to decode, only the grid layout
fails with `NoValidImages`; the strip layout returns a successful plan
with zero image placements (and can never produce `NoValidImages` at
all), and the polaroid, mosaic, filmstrip and magazine layouts likewise
return plans with zero image placements rather than failing. -/
theorem no_valid_images_amended (n : ℕ) (w h s : ℤ) (o : CollageOptions)
    (randF : ℕ → ℕ → ℚ) (rand : ℕ → ℚ) (decode : ℕ → Bool)
    (hall : ∀ i, decode i = false) :
    (createGridLayout n w h s o decode ≠ .error .canvasTooSmall →
      createGridLayout n w h s o decode = .error .noValidImages)
    ∧ (∀ plan, createStripLayout n w h s o decode = .ok plan → plan.placements = [])
    ∧ (∀ decode', createStripLayout n w h s o decode' ≠ .error .noValidImages)
    ∧ (createPolaroidLayout n w h o randF decode).placements = []
    ∧ (createMosaicLayout n w h o rand decode).placements = []
    ∧ (createFilmstripLayout n w h s o decode).placements = []
    ∧ (createMagazineLayout n w h s o decode).placements = [] := by
  refine ⟨?_, ?_, ?_, ?_, ?_, ?_, ?_⟩
  · simp only [createGridLayout]
    split
    · intro hne
      exact absurd rfl hne
    · intro _
      rw [filterMap_nil_of_none _ (List.range n) fun a _ => by simp [hall a]]
      simp
  · intro plan hp
    simp only [createStripLayout] at hp
    split at hp <;> split at hp
    · exact Except.noConfusion hp
    · rcases Except.ok.inj hp with rfl
      exact filterMap_nil_of_none _ (List.range n) fun a _ => by simp [hall a]
    · exact Except.noConfusion hp
    · rcases Except.ok.inj hp with rfl
      exact filterMap_nil_of_none _ (List.range n) fun a _ => by simp [hall a]
  · intro decode'
    simp only [createStripLayout]
    split <;> split <;> simp
  · exact polaroidAux_placements_nil w h (polaroidSizeOf n w h) randF decode hall n
  · exact filterMap_nil_of_none _ _ fun a _ => by simp [hall a]
  · exact filterMap_nil_of_none _ _ fun a _ => by simp [hall a]
  · simp only [createMagazineLayout]
    split
    · simp [hall 0]
    · rw [hall 0]
      rw [filterMap_nil_of_none _ (List.range (n - 1)) fun a _ => by simp [hall (a + 1)]]
      simp

/-- Witness for C4: four all-corrupt images on a 900×900 grid canvas
produce the `NoValidImages` failure. -/
theorem no_valid_images_amended_witness :
    createGridLayout 4 900 900 10 ⟨none, none, none⟩ (fun _ => false) =
      .error .noValidImages :=
  (no_valid_images_amended 4 900 900 10 ⟨none, none, none⟩ (fun _ _ => 0) (fun _ => 0)
    (fun _ => false) (fun _ => rfl)).1 (by with_unfolding_all decide)

/-- C4 counterexample: the strip layout (2 images, both failing decode,
on a valid 930×300 canvas) does NOT fail with `NoValidImages`: it returns
a successful plan whose placement list is empty — a composite built from
zero surviving image placements. -/
theorem strip_all_corrupt_counterexample :
    createStripLayout 2 930 300 10 ⟨none, none, none⟩ (fun _ => false) =
      .ok ⟨false, 450, 280, [], [0, 1], whiteRGBv⟩ := by
  with_unfolding_all decide

/-- C6: the polaroid cell size is
`max(150, min(300, floor(0.8·min(W,H)/ceil(sqrt(n)))))` (hence always in
`[150, 300]`), the inner image region has side `floor(0.75·polaroidSize)`,
the white frame border is `floor((polaroidSize−imageSize)/2)` with twice
that on the bottom edge, and every rotation drawn from the random stream
lies in `[−15°, 15°]`. -/
theorem polaroid_sizing_spec (n : ℕ) (canvasWidth canvasHeight : ℤ) (r : ℚ)
    (hr0 : 0 ≤ r) (hr1 : r < 1) :
    polaroidSizeOf n canvasWidth canvasHeight =
      max 150 (min 300
        ⌊(8/10 : ℚ) * ((min canvasWidth canvasHeight : ℤ) : ℚ) / (ceilSqrtN n : ℚ)⌋)
    ∧ 150 ≤ polaroidSizeOf n canvasWidth canvasHeight
    ∧ polaroidSizeOf n canvasWidth canvasHeight ≤ 300
    ∧ polaroidImageSize (polaroidSizeOf n canvasWidth canvasHeight) =
        ⌊(3/4 : ℚ) * ((polaroidSizeOf n canvasWidth canvasHeight : ℤ) : ℚ)⌋
    ∧ polaroidBottomBorder (polaroidSizeOf n canvasWidth canvasHeight) =
        2 * polaroidBorder (polaroidSizeOf n canvasWidth canvasHeight)
    ∧ (-15 ≤ rotationOf r ∧ rotationOf r ≤ 15) := by
  refine ⟨?_, le_max_left _ _, max_le (by norm_num) (min_le_left _ _), ?_, ?_, ?_, ?_⟩
  · have harg : polaroidBaseSize n canvasWidth canvasHeight * (8/10) =
        (8/10 : ℚ) * ((min canvasWidth canvasHeight : ℤ) : ℚ) / (ceilSqrtN n : ℚ) := by
      unfold polaroidBaseSize
      push_cast
      ring
    unfold polaroidSizeOf
    rw [harg]
  · unfold polaroidImageSize
    rw [mul_comm]
  · unfold polaroidBottomBorder
    ring
  · unfold rotationOf
    nlinarith
  · unfold rotationOf
    nlinarith

/-- Witness for C6: a rotation drawn with `Math.random() = 1/2` (zero
degrees) lies in the stated range, at the 4-image 200×200 instance. -/
theorem polaroid_sizing_spec_witness :
    -15 ≤ rotationOf (1/2) ∧ rotationOf (1/2) ≤ 15 :=
  (polaroid_sizing_spec 4 200 200 (1/2) (by with_unfolding_all decide)
    (by with_unfolding_all decide)).2.2.2.2.2

lemma mosaicRect_bounds (ar r0 r1 r2 r3 : ℚ) (har : 0 < ar)
    (h0 : 0 ≤ r0) (h0' : r0 < 1) (h1 : 0 ≤ r1) (h1' : r1 < 1)
    (h2 : 0 ≤ r2) (h2' : r2 < 1) (h3 : 0 ≤ r3) (h3' : r3 < 1) :
    0 ≤ (mosaicRect ar r0 r1 r2 r3).x ∧ 0 ≤ (mosaicRect ar r0 r1 r2 r3).y ∧
    (mosaicRect ar r0 r1 r2 r3).x + (mosaicRect ar r0 r1 r2 r3).width ≤ 1 ∧
    (mosaicRect ar r0 r1 r2 r3).y + (mosaicRect ar r0 r1 r2 r3).height ≤ 1 ∧
    0 < (mosaicRect ar r0 r1 r2 r3).width ∧ (mosaicRect ar r0 r1 r2 r3).width ≤ 1/2 ∧
    0 < (mosaicRect ar r0 r1 r2 r3).height ∧ (mosaicRect ar r0 r1 r2 r3).height ≤ 1/2 := by
  have hbw0 : (0 : ℚ) < 2/10 + r0 * (3/10) := by nlinarith
  have hbw1 : 2/10 + r0 * (3/10) < 1/2 := by nlinarith
  have hbh0 : (0 : ℚ) < 2/10 + r1 * (3/10) := by nlinarith
  have hbh1 : 2/10 + r1 * (3/10) < 1/2 := by nlinarith
  have hw0 : 0 < (mosaicRect ar r0 r1 r2 r3).width := by
    unfold mosaicRect
    dsimp only
    split
    · exact hbw0
    · exact mul_pos hbw0 har
  have hw2 : (mosaicRect ar r0 r1 r2 r3).width ≤ 1/2 := by
    unfold mosaicRect
    dsimp only
    split
    · exact le_of_lt hbw1
    · next hle =>
      calc (2/10 + r0 * (3/10)) * ar ≤ (2/10 + r0 * (3/10)) * 1 :=
            mul_le_mul_of_nonneg_left (by linarith) (le_of_lt hbw0)
        _ ≤ 1/2 := by linarith
  have hh0 : 0 < (mosaicRect ar r0 r1 r2 r3).height := by
    unfold mosaicRect
    dsimp only
    split
    · exact hbh0
    · exact div_pos hbh0 har
  have hh2 : (mosaicRect ar r0 r1 r2 r3).height ≤ 1/2 := by
    unfold mosaicRect
    dsimp only
    split
    · exact le_of_lt hbh1
    · next hle =>
      calc (2/10 + r1 * (3/10)) / ar ≤ 2/10 + r1 * (3/10) :=
            div_le_self (le_of_lt hbh0) (by linarith)
        _ ≤ 1/2 := le_of_lt hbh1
  have hxval : (mosaicRect ar r0 r1 r2 r3).x =
      r2 * (1 - (mosaicRect ar r0 r1 r2 r3).width) := by
    unfold mosaicRect
    dsimp only
  have hyval : (mosaicRect ar r0 r1 r2 r3).y =
      r3 * (1 - (mosaicRect ar r0 r1 r2 r3).height) := by
    unfold mosaicRect
    dsimp only
  refine ⟨?_, ?_, ?_, ?_, hw0, hw2, hh0, hh2⟩
  · rw [hxval]
    exact mul_nonneg h2 (by linarith)
  · rw [hyval]
    exact mul_nonneg h3 (by linarith)
  · rw [hxval]
    nlinarith
  · rw [hyval]
    nlinarith

lemma mosaicTile_bounds (canvasWidth canvasHeight : ℤ) (i : ℕ) (p : RectQ)
    (hw : p.width ≤ 1/2) (hh : p.height ≤ 1/2)
    (hW : 200 ≤ canvasWidth) (hH : 200 ≤ canvasHeight) :
    0 ≤ (mosaicTile canvasWidth canvasHeight i p).left ∧
    (mosaicTile canvasWidth canvasHeight i p).left +
      (mosaicTile canvasWidth canvasHeight i p).width ≤ canvasWidth ∧
    0 ≤ (mosaicTile canvasWidth canvasHeight i p).top ∧
    (mosaicTile canvasWidth canvasHeight i p).top +
      (mosaicTile canvasWidth canvasHeight i p).height ≤ canvasHeight := by
  have hWq : (0 : ℚ) ≤ (canvasWidth : ℚ) := by
    have : (0 : ℤ) ≤ canvasWidth := by omega
    exact_mod_cast this
  have hHq : (0 : ℚ) ≤ (canvasHeight : ℚ) := by
    have : (0 : ℤ) ≤ canvasHeight := by omega
    exact_mod_cast this
  have hfw : ⌊(canvasWidth : ℚ) * p.width⌋ ≤ canvasWidth - 100 := by
    have hq : (canvasWidth : ℚ) * p.width ≤ ((canvasWidth - 100 : ℤ) : ℚ) := by
      have h1 : (canvasWidth : ℚ) * p.width ≤ (canvasWidth : ℚ) * (1/2) :=
        mul_le_mul_of_nonneg_left hw hWq
      have h2 : (200 : ℚ) ≤ (canvasWidth : ℚ) := by exact_mod_cast hW
      push_cast
      linarith
    calc ⌊(canvasWidth : ℚ) * p.width⌋ ≤ ⌊((canvasWidth - 100 : ℤ) : ℚ)⌋ := Int.floor_mono hq
      _ = canvasWidth - 100 := Int.floor_intCast _
  have hfh : ⌊(canvasHeight : ℚ) * p.height⌋ ≤ canvasHeight - 100 := by
    have hq : (canvasHeight : ℚ) * p.height ≤ ((canvasHeight - 100 : ℤ) : ℚ) := by
      have h1 : (canvasHeight : ℚ) * p.height ≤ (canvasHeight : ℚ) * (1/2) :=
        mul_le_mul_of_nonneg_left hh hHq
      have h2 : (200 : ℚ) ≤ (canvasHeight : ℚ) := by exact_mod_cast hH
      push_cast
      linarith
    calc ⌊(canvasHeight : ℚ) * p.height⌋ ≤ ⌊((canvasHeight - 100 : ℤ) : ℚ)⌋ := Int.floor_mono hq
      _ = canvasHeight - 100 := Int.floor_intCast _
  have hwidth : max 100 ⌊(canvasWidth : ℚ) * p.width⌋ ≤ canvasWidth - 100 :=
    max_le (by omega) hfw
  have hheight : max 100 ⌊(canvasHeight : ℚ) * p.height⌋ ≤ canvasHeight - 100 :=
    max_le (by omega) hfh
  unfold mosaicTile
  dsimp only
  refine ⟨le_max_left 0 _, ?_, le_max_left 0 _, ?_⟩
  · have hle : max 0 (min (canvasWidth - max 100 ⌊(canvasWidth : ℚ) * p.width⌋)
        ⌊(canvasWidth : ℚ) * p.x⌋) ≤ canvasWidth - max 100 ⌊(canvasWidth : ℚ) * p.width⌋ :=
      max_le (by omega) (min_le_left _ _)
    omega
  · have hle : max 0 (min (canvasHeight - max 100 ⌊(canvasHeight : ℚ) * p.height⌋)
        ⌊(canvasHeight : ℚ) * p.y⌋) ≤ canvasHeight - max 100 ⌊(canvasHeight : ℚ) * p.height⌋ :=
      max_le (by omega) (min_le_left _ _)
    omega

/-- C7: every normalized rectangle produced by `generateMosaicPattern`
satisfies `0 ≤ x`, `0 ≤ y`, `x+width ≤ 1`, `y+height ≤ 1` with width and
height positive and at most 1/2 after aspect-ratio adjustment; and after
pixel conversion with the 100px floor and clamping, every tile lies
within the canvas (canvas dimensions at least 200). -/
theorem mosaic_bounds_spec (n : ℕ) (canvasWidth canvasHeight : ℤ) (rand : ℕ → ℚ)
    (hr : ∀ k, 0 ≤ rand k ∧ rand k < 1)
    (hW : 200 ≤ canvasWidth) (hH : 200 ≤ canvasHeight) :
    ∀ p ∈ generateMosaicPattern n canvasWidth canvasHeight rand,
      (0 ≤ p.x ∧ 0 ≤ p.y ∧ p.x + p.width ≤ 1 ∧ p.y + p.height ≤ 1 ∧
        0 < p.width ∧ p.width ≤ 1/2 ∧ 0 < p.height ∧ p.height ≤ 1/2) ∧
      ∀ i : ℕ,
        0 ≤ (mosaicTile canvasWidth canvasHeight i p).left ∧
        (mosaicTile canvasWidth canvasHeight i p).left +
          (mosaicTile canvasWidth canvasHeight i p).width ≤ canvasWidth ∧
        0 ≤ (mosaicTile canvasWidth canvasHeight i p).top ∧
        (mosaicTile canvasWidth canvasHeight i p).top +
          (mosaicTile canvasWidth canvasHeight i p).height ≤ canvasHeight := by
  intro p hp
  simp only [generateMosaicPattern, List.mem_map, List.mem_range] at hp
  rcases hp with ⟨k, _, rfl⟩
  have har : 0 < (canvasWidth : ℚ) / (canvasHeight : ℚ) := by
    apply div_pos
    · have : (0 : ℤ) < canvasWidth := by omega
      exact_mod_cast this
    · have : (0 : ℤ) < canvasHeight := by omega
      exact_mod_cast this
  have hb := mosaicRect_bounds ((canvasWidth : ℚ) / (canvasHeight : ℚ))
    (rand (4 * k)) (rand (4 * k + 1)) (rand (4 * k + 2)) (rand (4 * k + 3)) har
    (hr (4 * k)).1 (hr (4 * k)).2 (hr (4 * k + 1)).1 (hr (4 * k + 1)).2
    (hr (4 * k + 2)).1 (hr (4 * k + 2)).2 (hr (4 * k + 3)).1 (hr (4 * k + 3)).2
  refine ⟨⟨hb.1, hb.2.1, hb.2.2.1, hb.2.2.2.1, hb.2.2.2.2.1, hb.2.2.2.2.2.1,
    hb.2.2.2.2.2.2.1, hb.2.2.2.2.2.2.2⟩, ?_⟩
  intro i
  exact mosaicTile_bounds canvasWidth canvasHeight i _
    hb.2.2.2.2.2.1 hb.2.2.2.2.2.2.2 hW hH

/-- Witness for C7: the tile generated with all random draws equal to 1/2
on a 200×200 canvas satisfies both the normalized and the pixel bounds
(the latter checked at image index 0). -/
theorem mosaic_bounds_spec_witness :
    (0 ≤ wMosaicRect.x ∧ 0 ≤ wMosaicRect.y ∧
      wMosaicRect.x + wMosaicRect.width ≤ 1 ∧ wMosaicRect.y + wMosaicRect.height ≤ 1 ∧
      0 < wMosaicRect.width ∧ wMosaicRect.width ≤ 1/2 ∧
      0 < wMosaicRect.height ∧ wMosaicRect.height ≤ 1/2) ∧
    (0 ≤ (mosaicTile 200 200 0 wMosaicRect).left ∧
      (mosaicTile 200 200 0 wMosaicRect).left +
        (mosaicTile 200 200 0 wMosaicRect).width ≤ 200 ∧
      0 ≤ (mosaicTile 200 200 0 wMosaicRect).top ∧
      (mosaicTile 200 200 0 wMosaicRect).top +
        (mosaicTile 200 200 0 wMosaicRect).height ≤ 200) :=
  ⟨(mosaic_bounds_spec 1 200 200 (fun _ => 1/2)
      (fun _ => ⟨show (0 : ℚ) ≤ 1/2 by with_unfolding_all decide,
        show (1/2 : ℚ) < 1 by with_unfolding_all decide⟩)
      (by decide) (by decide) wMosaicRect (by with_unfolding_all decide)).1,
   (mosaic_bounds_spec 1 200 200 (fun _ => 1/2)
      (fun _ => ⟨show (0 : ℚ) ≤ 1/2 by with_unfolding_all decide,
        show (1/2 : ℚ) < 1 by with_unfolding_all decide⟩)
      (by decide) (by decide) wMosaicRect (by with_unfolding_all decide)).2 0⟩

lemma length_filterMap_ite_some {α : Type} (p : ℕ → Bool) (f : ℕ → α) :
    ∀ l : List ℕ, (l.filterMap fun i => if p i then some (f i) else none).length =
      l.countP p := by
  intro l
  induction l with
  | nil => rfl
  | cons a t ih =>
    by_cases hp : p a = true <;> simp [List.filterMap_cons, List.countP_cons, hp, ih]

lemma length_filterMap_ite_none {β : Type} (p : ℕ → Bool) (g : ℕ → β) :
    ∀ l : List ℕ, (l.filterMap fun i => if p i then none else some (g i)).length =
      l.countP fun i => !p i := by
  intro l
  induction l with
  | nil => rfl
  | cons a t ih =>
    by_cases hp : p a = true <;> simp [List.filterMap_cons, List.countP_cons, hp, ih]

lemma countP_add_countP_not (p : ℕ → Bool) :
    ∀ l : List ℕ, l.countP p + l.countP (fun i => !p i) = l.length := by
  intro l
  induction l with
  | nil => rfl
  | cons a t ih =>
    by_cases hp : p a = true <;> simp [List.countP_cons, hp] <;> omega

lemma placements_skips_length {α : Type} (n : ℕ) (decode : ℕ → Bool) (f : ℕ → α) :
    ((List.range n).filterMap fun i => if decode i then some (f i) else none).length +
      (skipList n decode).length = n := by
  unfold skipList
  have h := length_filterMap_ite_add decode f (fun i => i) (List.range n)
  rwa [List.length_range] at h

lemma polaroidAux_accounting (canvasWidth canvasHeight size : ℤ)
    (randF : ℕ → ℕ → ℚ) (decode : ℕ → Bool) :
    ∀ k, (polaroidAux canvasWidth canvasHeight size randF decode k).placements.length +
      (polaroidAux canvasWidth canvasHeight size randF decode k).skips.length = k := by
  intro k
  induction k with
  | zero => rfl
  | succ m ih =>
    by_cases hd : decode m = true <;>
      simp [polaroidAux, polaroidStep, hd] <;> omega

lemma generateMosaicPattern_length (n : ℕ) (w h : ℤ) (rand : ℕ → ℚ) :
    (generateMosaicPattern n w h rand).length = n := by
  simp [generateMosaicPattern]

/-- C8: for every layout, each input image ends as exactly one of placed
or skipped: the number of successful image placements plus the number of
skip entries equals the number of input images (for the grid and strip
layouts, on their successful results). -/
theorem skip_accounting_spec (n : ℕ) (w h s : ℤ) (o : CollageOptions)
    (randF : ℕ → ℕ → ℚ) (rand : ℕ → ℚ) (decode : ℕ → Bool) (hn : 1 ≤ n) :
    (∀ plan, createGridLayout n w h s o decode = .ok plan →
      plan.placements.length + plan.skips.length = n)
    ∧ (∀ plan, createStripLayout n w h s o decode = .ok plan →
      plan.placements.length + plan.skips.length = n)
    ∧ (createPolaroidLayout n w h o randF decode).placements.length +
        (createPolaroidLayout n w h o randF decode).skips.length = n
    ∧ (createMosaicLayout n w h o rand decode).placements.length +
        (createMosaicLayout n w h o rand decode).skips.length = n
    ∧ (createFilmstripLayout n w h s o decode).placements.length +
        (createFilmstripLayout n w h s o decode).skips.length = n
    ∧ (createMagazineLayout n w h s o decode).placements.length +
        (createMagazineLayout n w h s o decode).skips.length = n := by
  refine ⟨?_, ?_, ?_, ?_, ?_, ?_⟩
  · intro plan hp
    simp only [createGridLayout] at hp
    split at hp
    · exact Except.noConfusion hp
    · split at hp
      · exact Except.noConfusion hp
      · rcases Except.ok.inj hp with rfl
        exact placements_skips_length n decode _
  · intro plan hp
    simp only [createStripLayout] at hp
    split at hp <;> split at hp
    · exact Except.noConfusion hp
    · rcases Except.ok.inj hp with rfl
      exact placements_skips_length n decode _
    · exact Except.noConfusion hp
    · rcases Except.ok.inj hp with rfl
      exact placements_skips_length n decode _
  · exact polaroidAux_accounting w h (polaroidSizeOf n w h) randF decode n
  · show ((List.range (min n (generateMosaicPattern n w h rand).length)).filterMap _).length +
      (skipList (min n (generateMosaicPattern n w h rand).length) decode).length = n
    rw [generateMosaicPattern_length, min_self]
    exact placements_skips_length n decode _
  · exact placements_skips_length n decode _
  · simp only [createMagazineLayout]
    split
    · next hle =>
      have hn1 : n = 1 := by omega
      by_cases hd : decode 0 = true <;> simp [hd, hn1]
    · next hgt =>
      rw [List.length_append, List.length_append, length_filterMap_ite_some,
        length_filterMap_ite_none]
      have hc := countP_add_countP_not (fun i => decode (i + 1)) (List.range (n - 1))
      rw [List.length_range] at hc
      by_cases hd : decode 0 = true
      · rw [if_pos hd, if_pos hd]
        simp only [List.length_singleton, List.length_nil]
        omega
      · rw [if_neg hd, if_neg hd]
        simp only [List.length_singleton, List.length_nil]
        omega

/-- Witness for C8: with 3 images of which image 1 fails to decode, the
polaroid layout yields 2 placements and 1 skip. -/
theorem skip_accounting_spec_witness :
    (createPolaroidLayout 3 1000 1000 ⟨none, none, none⟩ (fun _ _ => 1/2)
      (fun i => i != 1)).placements.length +
    (createPolaroidLayout 3 1000 1000 ⟨none, none, none⟩ (fun _ _ => 1/2)
      (fun i => i != 1)).skips.length = 3 :=
  (skip_accounting_spec 3 1000 1000 10 ⟨none, none, none⟩ (fun _ _ => 1/2) (fun _ => 1/2)
    (fun i => i != 1) (by decide)).2.2.1

/-- C10: in the filmstrip layout the caller's `background` option colors
only the 60%-height band layer (`bandHeight = floor(0.6·canvasHeight)`);
the outer canvas behind the band is always `parseColor("#404040")`
= (64,64,64), and every other component of the plan (band geometry,
perforations, image placements, skips) is identical for any two
background option values. -/
theorem filmstrip_fixed_outer_background (n : ℕ) (w h s : ℤ)
    (o o' : CollageOptions) (decode : ℕ → Bool) :
    (createFilmstripLayout n w h s o decode).outerBackground = ⟨some 64, some 64, some 64⟩
    ∧ (createFilmstripLayout n w h s o decode).outerBackground =
        (createFilmstripLayout n w h s o' decode).outerBackground
    ∧ (createFilmstripLayout n w h s o decode).bandColor =
        parseColor (jsOr o.background "#1a1a1a")
    ∧ (createFilmstripLayout n w h s o decode).bandHeight = ⌊(h : ℚ) * (6/10)⌋
    ∧ (createFilmstripLayout n w h s o decode).bandLeft =
        (createFilmstripLayout n w h s o' decode).bandLeft
    ∧ (createFilmstripLayout n w h s o decode).bandTop =
        (createFilmstripLayout n w h s o' decode).bandTop
    ∧ (createFilmstripLayout n w h s o decode).bandWidth =
        (createFilmstripLayout n w h s o' decode).bandWidth
    ∧ (createFilmstripLayout n w h s o decode).bandHeight =
        (createFilmstripLayout n w h s o' decode).bandHeight
    ∧ (createFilmstripLayout n w h s o decode).perfHeight =
        (createFilmstripLayout n w h s o' decode).perfHeight
    ∧ (createFilmstripLayout n w h s o decode).perforations =
        (createFilmstripLayout n w h s o' decode).perforations
    ∧ (createFilmstripLayout n w h s o decode).placements =
        (createFilmstripLayout n w h s o' decode).placements
    ∧ (createFilmstripLayout n w h s o decode).skips =
        (createFilmstripLayout n w h s o' decode).skips :=
  ⟨by
    have h0 : (createFilmstripLayout n w h s o decode).outerBackground =
        parseColor "#404040" := rfl
    rw [h0]
    decide,
   rfl, rfl, rfl, rfl, rfl, rfl, rfl, rfl, rfl, rfl, rfl⟩

lemma rgbSearch_of_named {c : List Char} {rgb : RGBv} (h : lookupNamed c = some rgb) :
    rgbSearch c = none := by
  by_cases h0 : c = strL "white"
  · subst h0; decide
  by_cases h1 : c = strL "black"
  · subst h1; decide
  by_cases h2 : c = strL "gray"
  · subst h2; decide
  by_cases h3 : c = strL "grey"
  · subst h3; decide
  by_cases h4 : c = strL "red"
  · subst h4; decide
  by_cases h5 : c = strL "green"
  · subst h5; decide
  by_cases h6 : c = strL "blue"
  · subst h6; decide
  by_cases h7 : c = strL "yellow"
  · subst h7; decide
  by_cases h8 : c = strL "magenta"
  · subst h8; decide
  by_cases h9 : c = strL "cyan"
  · subst h9; decide
  exfalso
  unfold lookupNamed at h
  rw [if_neg h0, if_neg h1, if_neg h2, if_neg h3, if_neg h4, if_neg h5, if_neg h6,
    if_neg h7, if_neg h8, if_neg h9] at h
  exact Option.noConfusion h

lemma isHexDigitJS_toNat {c : Char} (h : isHexDigitJS c = true) :
    (48 ≤ c.toNat ∧ c.toNat ≤ 57) ∨ (97 ≤ c.toNat ∧ c.toNat ≤ 102) ∨
    (65 ≤ c.toNat ∧ c.toNat ≤ 70) := by
  simp only [isHexDigitJS, Bool.or_eq_true, Bool.and_eq_true, decide_eq_true_eq] at h
  rcases h with (⟨h1, h2⟩ | ⟨h1, h2⟩) | ⟨h1, h2⟩
  · exact Or.inl ⟨charLe_toNat h1, charLe_toNat h2⟩
  · exact Or.inr (Or.inl ⟨charLe_toNat h1, charLe_toNat h2⟩)
  · exact Or.inr (Or.inr ⟨charLe_toNat h1, charLe_toNat h2⟩)

lemma jsWhitespace_of_hex {c : Char} (h : isHexDigitJS c = true) :
    jsWhitespace c = false := by
  have hn := isHexDigitJS_toNat h
  by_contra hc
  rw [Bool.not_eq_false] at hc
  simp only [jsWhitespace, Bool.or_eq_true, Bool.and_eq_true, decide_eq_true_eq] at hc
  omega

lemma hex_ne {c : Char} (h : isHexDigitJS c = true) (d : Char)
    (hd : d.toNat < 48 ∨ (57 < d.toNat ∧ d.toNat < 65) ∨ (70 < d.toNat ∧ d.toNat < 97) ∨
      102 < d.toNat) : c ≠ d := by
  have hn := isHexDigitJS_toNat h
  intro he
  rw [he] at hn
  omega

/-- `parseInt` of a two-character hexadecimal string: no whitespace, sign
or `0x` marker can be present, so the value is the two digits in base 16. -/
lemma parseIntHex16_pair {a b : Char} (ha : isHexDigitJS a = true) (hb : isHexDigitJS b = true) :
    parseIntHex16 [a, b] = some (16 * (hexVal a : ℤ) + hexVal b) := by
  have hwa : jsWhitespace a = false := jsWhitespace_of_hex ha
  have hane : a ≠ '-' := hex_ne ha '-' (by decide)
  have hape : a ≠ '+' := hex_ne ha '+' (by decide)
  have hbx : b ≠ 'x' := hex_ne hb 'x' (by decide)
  have hbX : b ≠ 'X' := hex_ne hb 'X' (by decide)
  simp only [parseIntHex16, List.dropWhile_cons, hwa, Bool.false_eq_true, if_false,
    List.headD_cons, hane, decide_eq_true_eq, decide_eq_false_iff_not, List.tail_cons]
  simp [hane, hape, hbx, hbX, ha, hb, List.takeWhile_cons]

lemma lookupNamed_hash (rest : List Char) : lookupNamed ('#' :: rest) = none := by
  unfold lookupNamed
  repeat rw [if_neg (by intro h; injection h with h1 _; exact absurd h1 (by decide))]

lemma parseColor_named {s : String} {rgb : RGBv}
    (h : lookupNamed (trimJS (s.data.map lowerJS)) = some rgb) : parseColor s = rgb := by
  simp only [parseColor, h]

lemma parseColor_hex3 {s : String} {a b d : Char}
    (hc : trimJS (s.data.map lowerJS) = ['#', a, b, d])
    (ha : isHexDigitJS a = true) (hb : isHexDigitJS b = true) (hd : isHexDigitJS d = true) :
    parseColor s = ⟨some (17 * (hexVal a : ℤ)), some (17 * hexVal b), some (17 * hexVal d)⟩ := by
  simp only [parseColor, hc, lookupNamed_hash, List.headD_cons, List.tail_cons]
  rw [if_pos trivial, if_pos (by simp)]
  simp only [List.getD_cons_zero, List.getD_cons_succ]
  rw [parseIntHex16_pair ha ha, parseIntHex16_pair hb hb, parseIntHex16_pair hd hd]
  simp only [RGBv.mk.injEq, Option.some.injEq]
  refine ⟨by ring, by ring, by ring⟩

lemma parseColor_hex6 {s : String} {a b d e f g : Char}
    (hc : trimJS (s.data.map lowerJS) = ['#', a, b, d, e, f, g])
    (ha : isHexDigitJS a = true) (hb : isHexDigitJS b = true) (hd : isHexDigitJS d = true)
    (he : isHexDigitJS e = true) (hf : isHexDigitJS f = true) (hg : isHexDigitJS g = true) :
    parseColor s = ⟨some (16 * (hexVal a : ℤ) + hexVal b), some (16 * (hexVal d : ℤ) + hexVal e),
      some (16 * (hexVal f : ℤ) + hexVal g)⟩ := by
  simp only [parseColor, hc, lookupNamed_hash, List.headD_cons, List.tail_cons]
  rw [if_pos trivial, if_neg (by simp), if_pos (by simp)]
  simp only [List.getD_cons_zero, List.getD_cons_succ]
  rw [parseIntHex16_pair ha hb, parseIntHex16_pair hd he, parseIntHex16_pair hf hg]

lemma parseColor_rgbMatch {s : String} {r g b : ℕ}
    (hrgb : rgbSearch (trimJS (s.data.map lowerJS)) = some (r, g, b))
    (hx : hexShapedB (trimJS (s.data.map lowerJS)) = false) :
    parseColor s = ⟨some (min 255 (max 0 (r : ℤ))), some (min 255 (max 0 (g : ℤ))),
      some (min 255 (max 0 (b : ℤ)))⟩ := by
  have hnamed : lookupNamed (trimJS (s.data.map lowerJS)) = none := by
    cases hn : lookupNamed (trimJS (s.data.map lowerJS)) with
    | none => rfl
    | some rgb2 =>
      rw [rgbSearch_of_named hn] at hrgb
      exact Option.noConfusion hrgb
  simp only [parseColor, hnamed]
  simp only [hexShapedB, Bool.and_eq_false_iff, Bool.or_eq_false_iff,
    decide_eq_false_iff_not, beq_eq_false_iff_ne] at hx
  by_cases hh : (trimJS (s.data.map lowerJS)).headD ' ' = '#'
  · rw [if_pos hh]
    rcases hx with hx | ⟨hx3, hx6⟩
    · exact absurd hh hx
    · rw [if_neg hx3, if_neg hx6]
      unfold rgbOrWhite
      rw [hrgb]
  · rw [if_neg hh]
    unfold rgbOrWhite
    rw [hrgb]

lemma parseColor_white {s : String}
    (hnamed : lookupNamed (trimJS (s.data.map lowerJS)) = none)
    (hx : hexShapedB (trimJS (s.data.map lowerJS)) = false)
    (hrgb : rgbSearch (trimJS (s.data.map lowerJS)) = none) :
    parseColor s = whiteRGBv := by
  simp only [parseColor, hnamed]
  simp only [hexShapedB, Bool.and_eq_false_iff, Bool.or_eq_false_iff,
    decide_eq_false_iff_not, beq_eq_false_iff_ne] at hx
  by_cases hh : (trimJS (s.data.map lowerJS)).headD ' ' = '#'
  · rw [if_pos hh]
    rcases hx with hx | ⟨hx3, hx6⟩
    · exact absurd hh hx
    · rw [if_neg hx3, if_neg hx6]
      unfold rgbOrWhite
      rw [hrgb]
  · rw [if_neg hh]
    unfold rgbOrWhite
    rw [hrgb]

/-- C9 (amended): `parseColor` returns the table triple for the ten named
colors; for a `#`-prefixed token of 3 (resp. 6) hexadecimal digits it
returns the standard expanded (resp. paired) hex triple; when the
(lowercased, trimmed) string contains an `rgb(r,g,b)` match and does not
have the shape `#` + 3 or 6 characters, it returns the `[0,255]`-clamped
components; and it falls back to white exactly for strings that are not
named, not `#`-plus-3-or-6-characters shaped, and contain no `rgb(...)`
match.  (The original claim's universal white fallback fails for
`#`-shaped strings with invalid hex digits, because `parseInt` prefix
parsing still produces components — see the counterexample.) -/
theorem parse_color_resolution (s : String) :
    (∀ rgb, lookupNamed (trimJS (s.data.map lowerJS)) = some rgb → parseColor s = rgb)
    ∧ (∀ a b d, trimJS (s.data.map lowerJS) = ['#', a, b, d] →
        isHexDigitJS a = true → isHexDigitJS b = true → isHexDigitJS d = true →
        parseColor s = ⟨some (17 * (hexVal a : ℤ)), some (17 * hexVal b), some (17 * hexVal d)⟩)
    ∧ (∀ a b d e f g, trimJS (s.data.map lowerJS) = ['#', a, b, d, e, f, g] →
        isHexDigitJS a = true → isHexDigitJS b = true → isHexDigitJS d = true →
        isHexDigitJS e = true → isHexDigitJS f = true → isHexDigitJS g = true →
        parseColor s = ⟨some (16 * (hexVal a : ℤ) + hexVal b),
          some (16 * (hexVal d : ℤ) + hexVal e), some (16 * (hexVal f : ℤ) + hexVal g)⟩)
    ∧ (∀ r g b, rgbSearch (trimJS (s.data.map lowerJS)) = some (r, g, b) →
        hexShapedB (trimJS (s.data.map lowerJS)) = false →
        parseColor s = ⟨some (min 255 (max 0 (r : ℤ))), some (min 255 (max 0 (g : ℤ))),
          some (min 255 (max 0 (b : ℤ)))⟩)
    ∧ (lookupNamed (trimJS (s.data.map lowerJS)) = none →
        hexShapedB (trimJS (s.data.map lowerJS)) = false →
        rgbSearch (trimJS (s.data.map lowerJS)) = none →
        parseColor s = whiteRGBv) :=
  ⟨fun _ h => parseColor_named h,
   fun _ _ _ hc ha hb hd => parseColor_hex3 hc ha hb hd,
   fun _ _ _ _ _ _ hc ha hb hd he hf hg => parseColor_hex6 hc ha hb hd he hf hg,
   fun _ _ _ hrgb hx => parseColor_rgbMatch hrgb hx,
   fun hn hx hr => parseColor_white hn hx hr⟩

/-- Witness for C9: a named color, a 3-digit hex, a 6-digit hex, an
`rgb(...)` expression with clamping, and an unparsable string. -/
theorem parse_color_resolution_witness :
    parseColor "red" = ⟨some 255, some 0, some 0⟩ ∧
    parseColor "#abc" = ⟨some 170, some 187, some 204⟩ ∧
    parseColor "#a1b2c3" = ⟨some 161, some 178, some 195⟩ ∧
    parseColor "rgb(300, 2, 3)" = ⟨some 255, some 2, some 3⟩ ∧
    parseColor "nope" = whiteRGBv :=
  ⟨(parse_color_resolution "red").1 ⟨some 255, some 0, some 0⟩ (by decide),
   (parse_color_resolution "#abc").2.1 'a' 'b' 'c' (by decide) (by decide) (by decide)
     (by decide),
   (parse_color_resolution "#a1b2c3").2.2.1 'a' '1' 'b' '2' 'c' '3' (by decide) (by decide)
     (by decide) (by decide) (by decide) (by decide) (by decide),
   (parse_color_resolution "rgb(300, 2, 3)").2.2.2.1 300 2 3 (by decide) (by decide),
   (parse_color_resolution "nope").2.2.2.2 (by decide) (by decide) (by decide)⟩

/-- C9 counterexample: `"#1z1z1z"` is none of the claim's forms (it is
not a hex token: `z` is not a hexadecimal digit), yet `parseColor` does
not fall back to white: `parseInt("1z", 16)` prefix-parses to 1, so the
result is (1,1,1). -/
theorem parse_color_hex_counterexample :
    parseColor "#1z1z1z" = ⟨some 1, some 1, some 1⟩ ∧
    parseColor "#1z1z1z" ≠ whiteRGBv :=
  ⟨by decide, by decide⟩

end Pixpress
